import Mathlib

/-
Verification development for the oracle protocol reference implementation
(extensions/scarb-execute/tests/test_oracle.py).

The script exchanges line-delimited JSON-RPC 2.0 messages on stdin/stdout.
We shallowly embed the JSON data model, the felt codec (the Python builtins
"hex" and "int(s, 0)" as used by encode/decode), and the protocol engine
(main, listen, recv, send, fatal_error) as pure Lean functions.  Inputs are
modelled as the list of already-parsed JSON values arriving on stdin (one
per line); outputs are the list of protocol messages written to stdout,
paired with the process exit code (0 for graceful end, 1 for a fatal
protocol violation or an uncaught exception).
-/

/-- A JSON value as produced by json.loads.  JSON floats are not modelled;
no claim depends on them.  Python booleans are int subtypes, which matters
for equality tests and is handled where relevant (pyEqInt). -/
inductive JVal where
  | jnull
  | jbool (b : Bool)
  | jint (n : Int)
  | jstr (s : String)
  | jarr (elems : List JVal)
  | jobj (fields : List (String × JVal))

/-- Python dict lookup dict.get(k): for duplicate keys json.loads keeps the
last binding, so the fold keeps the last match. -/
def dictGet (l : List (String × JVal)) (k : String) : Option JVal :=
  l.foldl (fun acc p => if p.1 = k then some p.2 else acc) none

/-- Collapse a JSON null to a missing value: Python dict.get returns None
both when the key is absent and when its value is null, and the script only
ever tests identifiers with "is not None" or uses them verbatim. -/
def normNull : Option JVal → Option JVal
  | some .jnull => none
  | x => x

/-- Python truthiness of a JSON value, as used by the test "if not method". -/
def pyTruthy : JVal → Bool
  | .jnull => false
  | .jbool b => b
  | .jint n => n != 0
  | .jstr s => s != ""
  | .jarr l => !l.isEmpty
  | .jobj l => !l.isEmpty

/-- Python equality of a JSON value against a string literal. -/
def pyEqStr : JVal → String → Bool
  | .jstr s, t => s == t
  | _, _ => false

/-- Python equality of a JSON value against an int (True equals 1 and False
equals 0 in Python, since bool is an int subtype). -/
def pyEqInt : JVal → Int → Bool
  | .jint a, n => a == n
  | .jbool b, n => (if b then (1 : Int) else 0) == n
  | _, _ => false

/-- The jsonrpc version check performed by recv:
message.get("jsonrpc") != "2.0" is a fatal protocol violation. -/
def jsonrpcOk (fields : List (String × JVal)) : Bool :=
  match dictGet fields "jsonrpc" with
  | some (.jstr s) => s == "2.0"
  | _ => false

/-- Whether a JSON value is an object (recv requires the top level to be). -/
def isObjB : JVal → Bool
  | .jobj _ => true
  | _ => false

/-- Whether a JSON value is a string (the branch test of decode). -/
def isStrB : JVal → Bool
  | .jstr _ => true
  | _ => false

/-- The truthiness of request.get("method"): false when the key is missing
or its value is falsy. -/
def methodTruthy (fields : List (String × JVal)) : Bool :=
  match dictGet fields "method" with
  | some v => pyTruthy v
  | none => false

/- ## The felt codec -/

/-- ASCII whitespace stripped by Python int() around a numeric string. -/
def isPySpace (c : Char) : Bool :=
  c == ' ' || c == '\t' || c == '\n' || c == '\r' || c == '\x0b' || c == '\x0c'

/-- Value of a hexadecimal digit character. -/
def hexVal (c : Char) : Option Nat :=
  if '0' ≤ c ∧ c ≤ '9' then some (c.toNat - '0'.toNat)
  else if 'a' ≤ c ∧ c ≤ 'f' then some (c.toNat - 'a'.toNat + 10)
  else if 'A' ≤ c ∧ c ≤ 'F' then some (c.toNat - 'A'.toNat + 10)
  else none

/-- Value of a decimal digit character. -/
def decVal (c : Char) : Option Nat :=
  if '0' ≤ c ∧ c ≤ '9' then some (c.toNat - '0'.toNat) else none

/-- Value of an octal digit character. -/
def octVal (c : Char) : Option Nat :=
  if '0' ≤ c ∧ c ≤ '7' then some (c.toNat - '0'.toNat) else none

/-- Value of a binary digit character. -/
def binVal (c : Char) : Option Nat :=
  if c = '0' then some 0 else if c = '1' then some 1 else none

/-- Digit function accepting only the zero digit (used for the all-zero
decimal literals "0", "00", "0_0" accepted by int(s, 0)). -/
def zeroVal (c : Char) : Option Nat :=
  if c = '0' then some 0 else none

/-- Accumulate a digit string in base b, allowing single underscores
between digits (and before the first digit, which only arises directly
after a base prefix, exactly as in CPython's int(s, 0)). -/
def digitsAux (dv : Char → Option Nat) (b : Nat) : List Char → Nat → Option Nat
  | [], acc => some acc
  | c :: rest, acc =>
    if c = '_' then
      match rest with
      | [] => none
      | c2 :: rest2 =>
        match dv c2 with
        | some d => digitsAux dv b rest2 (acc * b + d)
        | none => none
    else
      match dv c with
      | some d => digitsAux dv b rest (acc * b + d)
      | none => none

/-- The unsigned part of a Python base-0 integer literal: a 0x/0X, 0o/0O or
0b/0B prefix selects the base; a bare nonzero number is decimal; leading
zeros are only allowed when all digits are zero. -/
def parseUnsigned : List Char → Option Nat
  | [] => none
  | c :: rest =>
    if c = '0' then
      match rest with
      | [] => some 0
      | x :: rest2 =>
        if x = 'x' || x = 'X' then
          if rest2.isEmpty then none else digitsAux hexVal 16 rest2 0
        else if x = 'o' || x = 'O' then
          if rest2.isEmpty then none else digitsAux octVal 8 rest2 0
        else if x = 'b' || x = 'B' then
          if rest2.isEmpty then none else digitsAux binVal 2 rest2 0
        else
          digitsAux zeroVal 10 (x :: rest2) 0
    else
      match decVal c with
      | some d => digitsAux decVal 10 rest d
      | none => none

/-- Strip ASCII whitespace from both ends, as int() does. -/
def pyStrip (l : List Char) : List Char :=
  ((l.dropWhile isPySpace).reverse.dropWhile isPySpace).reverse

/-- Optional single sign in front of the unsigned literal. -/
def pySigned : List Char → Option Int
  | [] => none
  | c :: rest =>
    if c = '-' then (parseUnsigned rest).map (fun k => -(k : Int))
    else if c = '+' then (parseUnsigned rest).map (fun k => (k : Int))
    else (parseUnsigned (c :: rest)).map (fun k => (k : Int))

/-- CPython int(s, 0) on a string: strip whitespace, optional sign, then a
prefixed or decimal literal.  none models the ValueError raised on an
unparsable literal (which the script does not catch). -/
def pyIntBase0 (s : String) : Option Int :=
  pySigned (pyStrip s.toList)

/-- Hexadecimal digit character (lowercase), as produced by hex(). -/
def hexDigitChar (d : Nat) : Char :=
  if d < 10 then Char.ofNat ('0'.toNat + d) else Char.ofNat ('a'.toNat + (d - 10))

/-- Digits of n in base 16, most significant first, prepended to acc.
The first argument is structural fuel; any fuel at least n suffices. -/
def natToHexAux : Nat → Nat → List Char → List Char
  | 0, _, acc => acc
  | fuel + 1, n, acc =>
    if n = 0 then acc else natToHexAux fuel (n / 16) (hexDigitChar (n % 16) :: acc)

/-- Hex digit string of a natural number, "0" for zero, no leading zeros. -/
def natToHex (n : Nat) : List Char :=
  if n = 0 then ['0'] else natToHexAux n n []

/-- CPython hex(n): lowercase 0x-prefixed hexadecimal, sign in front for
negative arguments. -/
def pyHex (n : Int) : String :=
  if n < 0 then ('-' :: '0' :: 'x' :: natToHex n.natAbs).asString
  else ('0' :: 'x' :: natToHex n.natAbs).asString

/-- encode from the script: hex() applied pointwise to the result felts. -/
def encode (result : List Int) : List String :=
  result.map pyHex

/-- The body of decode's comprehension applied to one calldata element:
strings go through int(felt, 0), every other value is returned unchanged. -/
def decodeElem : JVal → Option JVal
  | .jstr s => (pyIntBase0 s).map JVal.jint
  | v => some v

/-- decode from the script: the comprehension over calldata; none models the
uncaught ValueError aborting the process on the first unparsable string. -/
def decode (l : List JVal) : Option (List JVal) :=
  l.mapM decodeElem

/- ## Protocol engine data -/

/-- A message emitted on stdout by send.  Every emitted message also carries
the constant field jsonrpc = "2.0", which is not modelled as data; the error
field holds the message string of the emitted object with code 0. -/
structure OutMsg where
  id : JVal
  method : Option String
  params : Option JVal
  result : Option (List String)
  error : Option String

/-- Process-wide state of the engine: the global _next_send_id counter. -/
structure St where
  nextSendId : Nat

/-- Result of one oracle process run: the protocol messages written to
stdout in order, and the process exit code. -/
structure RunResult where
  outputs : List OutMsg
  exitCode : Nat

/-- Best-effort repr of a Python value, used only inside diagnostic message
strings (f-string interpolation with the repr conversion).  String escaping
subtleties of repr are not reproduced; no claim depends on these texts. -/
def squote : String :=
  String.singleton (Char.ofNat 39)

mutual

def reprJVal : JVal → String
  | .jnull => "None"
  | .jbool true => "True"
  | .jbool false => "False"
  | .jint n => toString n
  | .jstr s => squote ++ s ++ squote
  | .jarr xs => "[" ++ reprArr xs ++ "]"
  | .jobj kvs => "\x7b" ++ reprObj kvs ++ "\x7d"

def reprArr : List JVal → String
  | [] => ""
  | [x] => reprJVal x
  | x :: y :: xs => reprJVal x ++ ", " ++ reprArr (y :: xs)

def reprObj : List (String × JVal) → String
  | [] => ""
  | [(k, v)] => squote ++ k ++ squote ++ ": " ++ reprJVal v
  | (k, v) :: p :: xs => squote ++ k ++ squote ++ ": " ++ reprJVal v ++ ", " ++ reprObj (p :: xs)

end

/-- send with a response payload: a given identifier is echoed verbatim and
the counter is untouched; a missing identifier is replaced by the fresh
counter value, which is then incremented (lines 53-55 of the script). -/
def replyWith (st : St) (rid : Option JVal) (result? : Option (List String))
    (error? : Option String) : OutMsg × St :=
  match rid with
  | some v => (⟨v, none, none, result?, error?⟩, st)
  | none => (⟨.jint st.nextSendId, none, none, result?, error?⟩, ⟨st.nextSendId + 1⟩)

/-- The error response sent by fatal_error when in_reply_to is not None. -/
def errOut (id : JVal) (msg : String) : OutMsg :=
  ⟨id, none, none, none, some msg⟩

/-- The ready handshake message: send(method="ready") from the initial
counter state 0. -/
def readyMsg : OutMsg :=
  ⟨.jint 0, some "ready", none, none, none⟩

/-- Dispatch step result for one inbound message. -/
inductive StepRes where
  | fatal (extra : List OutMsg)
  | stop
  | reply (out : OutMsg) (st' : St)

/-- Python iteration over the calldata value: lists yield their elements,
strings yield their one-character substrings, dicts yield their keys,
everything else raises TypeError (modelled as none). -/
def pyIter : JVal → Option (List JVal)
  | .jarr l => some l
  | .jstr s => some (s.toList.map (fun c => .jstr (String.singleton c)))
  | .jobj l => some (l.map (fun p => .jstr p.1))
  | _ => none

/-- params extraction and calldata decoding of the invoke branch:
params = request.get("params", {}), selector = params.get("selector", ""),
calldata = decode(params.get("calldata", [])).  none models an uncaught
exception (params not a dict, calldata not iterable, or an unparsable
calldata string), which aborts the process before any response. -/
def invokePrep (fields : List (String × JVal)) : Option (JVal × List JVal) :=
  let params := (dictGet fields "params").getD (.jobj [])
  match params with
  | .jobj pl =>
    let selector := (dictGet pl "selector").getD (.jstr "")
    let calldataV := (dictGet pl "calldata").getD (.jarr [])
    match pyIter calldataV with
    | some elems => (decode elems).map (fun args => (selector, args))
    | none => none
  | _ => none

/-- The fatal_error path of the missing/empty-method branch: a best-effort
error response is sent only when the request carried an identifier, then
the process exits 1. -/
def fatalMethod (fields : List (String × JVal)) : StepRes :=
  match normNull (dictGet fields "id") with
  | some v => .fatal [errOut v ("expected method, got " ++ reprJVal (.jobj fields))]
  | none => .fatal []

/-- One serving-loop iteration on one inbound line (already parsed JSON):
the validation of recv followed by the method dispatch of main.  The
dispatch table (route_invoke) is a parameter: its success value is the felt
list to hex-encode, its error value the description str(e) of the raised
exception.  (The script's sqrt handler computes int(calldata[0] ** 0.5)
through platform floating point and is therefore passed in rather than
embedded; see the C6 theorem.) -/
def step (table : JVal → List JVal → Except String (List Int)) (st : St)
    (m : JVal) : StepRes :=
  match m with
  | .jobj fields =>
    if jsonrpcOk fields then
      match dictGet fields "method" with
      | some mv =>
        if pyTruthy mv then
          if pyEqStr mv "shutdown" then .stop
          else if pyEqStr mv "invoke" then
            match invokePrep fields with
            | some (sel, args) =>
              match table sel args with
              | .ok res =>
                let p := replyWith st (normNull (dictGet fields "id")) (some (encode res)) none
                .reply p.1 p.2
              | .error e =>
                let p := replyWith st (normNull (dictGet fields "id")) none (some e)
                .reply p.1 p.2
            | none => .fatal []
          else
            let p := replyWith st (normNull (dictGet fields "id")) none
              (some ("unknown method " ++ reprJVal mv))
            .reply p.1 p.2
        else fatalMethod fields
      | none => fatalMethod fields
    else .fatal []
  | _ => .fatal []

/-- The serving loop: for request in listen(): end of input ends the loop
(exit 0); otherwise one message is read and dispatched; shutdown breaks out
of the loop (exit 0). -/
def serveLoop (table : JVal → List JVal → Except String (List Int)) :
    St → List JVal → RunResult
  | _, [] => ⟨[], 0⟩
  | st, m :: rest =>
    match step table st m with
    | .fatal extra => ⟨extra, 1⟩
    | .stop => ⟨[], 0⟩
    | .reply out st' =>
      let r := serveLoop table st' rest
      ⟨out :: r.outputs, r.exitCode⟩

/-- Whether the handshake acknowledgement correlates: message.get("id") is
compared with Python equality against the integer identifier 0 just sent. -/
def handshakeIdOk (fields : List (String × JVal)) : Bool :=
  match normNull (dictGet fields "id") with
  | some v => pyEqInt v 0
  | none => false

/-- One full oracle process run (main): emit ready with the fresh identifier
0, read exactly one line and require a correlated acknowledgement (end of
input, a non-object, a bad version, or an uncorrelated id is fatal; only an
uncorrelated non-null id earns a best-effort error response), then serve. -/
def runOracle (table : JVal → List JVal → Except String (List Int))
    (inputs : List JVal) : RunResult :=
  match inputs with
  | [] => ⟨[readyMsg], 1⟩
  | m :: rest =>
    match m with
    | .jobj fields =>
      if jsonrpcOk fields then
        if handshakeIdOk fields then
          let r := serveLoop table ⟨1⟩ rest
          ⟨readyMsg :: r.outputs, r.exitCode⟩
        else
          match normNull (dictGet fields "id") with
          | some v =>
            ⟨[readyMsg, errOut v ("expected message with ID 0, got " ++ reprJVal v)], 1⟩
          | none => ⟨[readyMsg], 1⟩
      else ⟨[readyMsg], 1⟩
    | _ => ⟨[readyMsg], 1⟩

/-- A dispatch table for concrete instantiations: every selector fails with
the fixed description "oops" (the behaviour of the panic selector). -/
def oopsTable : JVal → List JVal → Except String (List Int) :=
  fun _ _ => .error "oops"

/- ## Floating-point context of the sqrt handler -/

/-- Bit length of a natural number (structural fuel version). -/
def bitLenAux : Nat → Nat → Nat
  | 0, _ => 0
  | fuel + 1, n => if n = 0 then 0 else bitLenAux fuel (n / 2) + 1

/-- Bit length of a natural number. -/
def bitLen (n : Nat) : Nat := bitLenAux n n

/-- Rounding of a natural number to the nearest IEEE-754 binary64 value
(round-to-nearest, ties-to-even), for magnitudes far below overflow.  This
is the conversion CPython performs on calldata[0] before evaluating
calldata[0] ** 0.5 in the sqrt handler: integers above 2 to the 53rd are
rounded to a multiple of an ulp of their binade. -/
def roundB64 (n : Nat) : Nat :=
  if n < 2 ^ 53 then n
  else
    let ulp := 2 ^ (bitLen n - 53)
    let q := n / ulp
    let r := n % ulp
    if 2 * r < ulp then q * ulp
    else if 2 * r > ulp then (q + 1) * ulp
    else if q % 2 = 0 then q * ulp else (q + 1) * ulp

/-- Modelled from the spec: the integer square root claimed for the sqrt
selector, the largest r with r * r at most n.  (The script itself computes
int(calldata[0] ** 0.5) in floating point, which is not embedded.) -/
def specIsqrt (n : Nat) : Nat := Nat.sqrt n

/-- The value denoted by prepending the base-16 digits of n to an
accumulated value a (proof helper for the hex round trip). -/
def hexCombine (a : Nat) (n : Nat) : Nat :=
  if h : n = 0 then a else hexCombine a (n / 16) * 16 + n % 16
termination_by n
decreasing_by exact Nat.div_lt_self (Nat.pos_of_ne_zero h) (by omega)

/-- A lowercase hexadecimal digit character. -/
def isLowerHexDigit (c : Char) : Bool :=
  (('0' ≤ c) && (c ≤ '9')) || (('a' ≤ c) && (c ≤ 'f'))

/-- The format demanded of encode_felt output on a non-negative felt: a 0x
prefix, at least one digit, all digits lowercase hexadecimal, no leading
zero digit except for the exact rendering "0x0" of zero. -/
def encodeFeltOk (n : Nat) : Bool :=
  let l := (pyHex (n : Int)).toList
  decide (l.take 2 = ['0', 'x']) &&
  decide (l.drop 2 ≠ []) &&
  (l.drop 2).all isLowerHexDigit &&
  (if n = 0 then decide (l = ['0', 'x', '0']) else decide ((l.drop 2).head? ≠ some '0'))

/-- A concrete invoke request carrying identifier 7 and selector panic. -/
def invokeFields : List (String × JVal) :=
  [("jsonrpc", .jstr "2.0"), ("id", .jint 7), ("method", .jstr "invoke"),
   ("params", .jobj [("selector", .jstr "panic"), ("calldata", .jarr [])])]

/-- A concrete invoke request carrying no identifier. -/
def noidInvokeFields : List (String × JVal) :=
  [("jsonrpc", .jstr "2.0"), ("method", .jstr "invoke"),
   ("params", .jobj [("selector", .jstr "panic"), ("calldata", .jarr [])])]

/-- A concrete handshake acknowledgement with the wrong identifier 7. -/
def wrongAckFields : List (String × JVal) :=
  [("jsonrpc", .jstr "2.0"), ("id", .jint 7)]

/-- A concrete shutdown request. -/
def shutdownFields : List (String × JVal) :=
  [("jsonrpc", .jstr "2.0"), ("id", .jint 8), ("method", .jstr "shutdown")]

/-- A concrete request carrying identifier 9 and no method at all. -/
def noMethodFields : List (String × JVal) :=
  [("jsonrpc", .jstr "2.0"), ("id", .jint 9)]

/-- A session whose second line carries identifier 3 but the wrong protocol
version: a fatal violation on a message that carries an identifier. -/
def badVersionSession : List JVal :=
  [.jobj [("jsonrpc", .jstr "2.0"), ("id", .jint 0)],
   .jobj [("jsonrpc", .jstr "1.0"), ("id", .jint 3)]]

/- ## Codec lemmas -/

theorem toList_asString (l : List Char) : (List.asString l).toList = l := rfl

theorem dropWhile_eq_self_of_forall {p : Char → Bool} :
    ∀ l : List Char, (∀ c ∈ l, p c = false) → l.dropWhile p = l := by
  intro l h
  induction l with
  | nil => rfl
  | cons a t ih =>
    rw [List.dropWhile_cons, h a (by simp)]
    simp

theorem pyStrip_eq_self {l : List Char} (h : ∀ c ∈ l, isPySpace c = false) :
    pyStrip l = l := by
  unfold pyStrip
  rw [dropWhile_eq_self_of_forall l h,
    dropWhile_eq_self_of_forall l.reverse (by
      intro c hc
      exact h c (List.mem_reverse.mp hc))]
  exact List.reverse_reverse l

theorem natToHexAux_zero (fuel : Nat) (acc : List Char) : natToHexAux fuel 0 acc = acc := by
  cases fuel <;> simp [natToHexAux]

theorem natToHexAux_acc : ∀ (fuel n : Nat) (acc : List Char),
    natToHexAux fuel n acc = natToHexAux fuel n [] ++ acc := by
  intro fuel
  induction fuel with
  | zero => intro n acc; rfl
  | succ f ih =>
    intro n acc
    by_cases h : n = 0
    · subst h; simp [natToHexAux]
    · simp only [natToHexAux, if_neg h]
      rw [ih (n / 16) (hexDigitChar (n % 16) :: acc), ih (n / 16) [hexDigitChar (n % 16)]]
      simp

theorem natToHex_ne_nil (n : Nat) : natToHex n ≠ [] := by
  unfold natToHex
  split
  · simp
  · next h =>
    obtain ⟨k, rfl⟩ := Nat.exists_eq_succ_of_ne_zero h
    simp only [natToHexAux, if_neg h]
    rw [natToHexAux_acc]
    simp

theorem digitsAux_cons_digit {dv : Char → Option Nat} {b : Nat} {c : Char} {rest : List Char}
    {acc d : Nat} (hu : c ≠ '_') (hd : dv c = some d) :
    digitsAux dv b (c :: rest) acc = digitsAux dv b rest (acc * b + d) := by
  rw [digitsAux.eq_def]
  dsimp only
  rw [if_neg hu, hd]

theorem natToHexAux_mem : ∀ (fuel n : Nat) (acc : List Char) (c : Char),
    c ∈ natToHexAux fuel n acc → (∃ d, d < 16 ∧ c = hexDigitChar d) ∨ c ∈ acc := by
  intro fuel
  induction fuel with
  | zero => intro n acc c h; exact Or.inr h
  | succ f ih =>
    intro n acc c h
    by_cases hn : n = 0
    · subst hn; simp only [natToHexAux, if_pos rfl] at h; exact Or.inr h
    · simp only [natToHexAux, if_neg hn] at h
      rcases ih _ _ _ h with h1 | h2
      · exact Or.inl h1
      · rcases List.mem_cons.mp h2 with h3 | h4
        · exact Or.inl ⟨n % 16, Nat.mod_lt _ (by omega), h3⟩
        · exact Or.inr h4

theorem natToHex_mem {n : Nat} {c : Char} (h : c ∈ natToHex n) :
    ∃ d, d < 16 ∧ c = hexDigitChar d := by
  unfold natToHex at h
  split at h
  · simp at h
    exact ⟨0, by omega, by rw [h]; rfl⟩
  · rcases natToHexAux_mem _ _ _ _ h with h1 | h2
    · exact h1
    · simp at h2

theorem hexVal_hexDigitChar {d : Nat} (h : d < 16) : hexVal (hexDigitChar d) = some d := by
  interval_cases d <;> rfl

theorem hexDigitChar_ne_underscore {d : Nat} (h : d < 16) : hexDigitChar d ≠ '_' := by
  interval_cases d <;> decide

theorem hexDigitChar_not_space {d : Nat} (h : d < 16) : isPySpace (hexDigitChar d) = false := by
  interval_cases d <;> rfl

theorem hexDigitChar_lower {d : Nat} (h : d < 16) : isLowerHexDigit (hexDigitChar d) = true := by
  interval_cases d <;> rfl

theorem hexDigitChar_ne_zero {d : Nat} (h1 : d < 16) (h2 : d ≠ 0) : hexDigitChar d ≠ '0' := by
  interval_cases d
  · exact absurd rfl h2
  all_goals decide

theorem hexCombine_zero_left : ∀ n, hexCombine 0 n = n := by
  intro n
  induction n using Nat.strong_induction_on with
  | _ n ih =>
    rw [hexCombine]
    split
    · omega
    · next h =>
      rw [ih (n / 16) (Nat.div_lt_self (Nat.pos_of_ne_zero h) (by omega))]
      have := Nat.div_add_mod n 16
      omega

theorem digitsAux_natToHexAux : ∀ (fuel n accN : Nat) (accL : List Char), n ≤ fuel →
    digitsAux hexVal 16 (natToHexAux fuel n accL) accN =
      digitsAux hexVal 16 accL (hexCombine accN n) := by
  intro fuel
  induction fuel with
  | zero =>
    intro n accN accL h
    have hn : n = 0 := by omega
    subst hn
    rw [hexCombine]
    rfl
  | succ f ih =>
    intro n accN accL h
    by_cases hn : n = 0
    · subst hn
      simp only [natToHexAux, if_pos rfl]
      rw [hexCombine]
      rfl
    · simp only [natToHexAux, if_neg hn]
      have hdiv : n / 16 ≤ f := by
        have := Nat.div_lt_self (Nat.pos_of_ne_zero hn) (show 1 < 16 by omega)
        omega
      rw [ih (n / 16) accN _ hdiv]
      rw [digitsAux_cons_digit (hexDigitChar_ne_underscore (Nat.mod_lt _ (show 0 < 16 by omega)))
        (hexVal_hexDigitChar (Nat.mod_lt _ (show 0 < 16 by omega)))]
      congr 1
      conv_rhs => rw [hexCombine]
      rw [dif_neg hn]

theorem digitsAux_natToHex (n : Nat) : digitsAux hexVal 16 (natToHex n) 0 = some n := by
  unfold natToHex
  split
  · next h => subst h; rfl
  · rw [digitsAux_natToHexAux n n 0 [] le_rfl, hexCombine_zero_left]
    rfl

theorem parseUnsigned_hex (n : Nat) :
    parseUnsigned ('0' :: 'x' :: natToHex n) = some n := by
  have hne : (natToHex n).isEmpty = false := by
    cases hl : natToHex n with
    | nil => exact absurd hl (natToHex_ne_nil n)
    | cons a t => rfl
  rw [parseUnsigned.eq_def]
  dsimp only
  rw [if_pos rfl, if_pos (by decide : (decide ('x' = 'x') || decide ('x' = 'X')) = true),
    hne, if_neg (by decide : ¬ (false = true))]
  exact digitsAux_natToHex n

theorem pyHex_ofNat (n : Nat) : pyHex (n : Int) = ('0' :: 'x' :: natToHex n).asString := by
  unfold pyHex
  rw [if_neg (by omega : ¬ ((n : Int) < 0))]
  simp

theorem pyIntBase0_pyHex (n : Nat) : pyIntBase0 (pyHex (n : Int)) = some (n : Int) := by
  rw [pyHex_ofNat]
  unfold pyIntBase0
  rw [toList_asString]
  rw [pyStrip_eq_self (by
    intro c hc
    rcases List.mem_cons.mp hc with rfl | hc2
    · rfl
    rcases List.mem_cons.mp hc2 with rfl | hc3
    · rfl
    obtain ⟨d, hd, rfl⟩ := natToHex_mem hc3
    exact hexDigitChar_not_space hd)]
  rw [pySigned.eq_def]
  dsimp only
  rw [if_neg (by decide : ¬ ('0' = '-')), if_neg (by decide : ¬ ('0' = '+')),
    parseUnsigned_hex]
  rfl

theorem decodeElem_pyHex (n : Nat) :
    decodeElem (.jstr (pyHex (n : Int))) = some (.jint (n : Int)) := by
  rw [decodeElem, pyIntBase0_pyHex]
  rfl

theorem decode_map_pyHex (ns : List Nat) :
    decode (ns.map (fun (n : Nat) => JVal.jstr (pyHex (n : Int)))) =
      some (ns.map (fun (n : Nat) => JVal.jint (n : Int))) := by
  induction ns with
  | nil => rfl
  | cons a t ih =>
    simp only [List.map_cons, decode, List.mapM_cons] at ih ⊢
    rw [decodeElem_pyHex a]
    simp only [Option.pure_def, Option.bind_eq_bind, Option.some_bind] at ih ⊢
    rw [ih]
    rfl

theorem decode_encode (ns : List Nat) :
    decode ((encode (ns.map (fun (n : Nat) => (n : Int)))).map JVal.jstr) =
      some (ns.map (fun (n : Nat) => JVal.jint (n : Int))) := by
  have h : (encode (ns.map (fun (n : Nat) => (n : Int)))).map JVal.jstr =
      ns.map (fun (n : Nat) => JVal.jstr (pyHex (n : Int))) := by
    simp [encode, List.map_map]
  rw [h, decode_map_pyHex]

theorem natToHexAux_head : ∀ (fuel n : Nat) (acc : List Char), n ≠ 0 → n ≤ fuel →
    ∃ c t, natToHexAux fuel n acc = c :: t ∧ c ≠ '0' ∧ isLowerHexDigit c = true := by
  intro fuel
  induction fuel with
  | zero => intro n acc h1 h2; omega
  | succ f ih =>
    intro n acc h1 h2
    simp only [natToHexAux, if_neg h1]
    by_cases hq : n / 16 = 0
    · have hlt : n < 16 := by omega
      have hmod : n % 16 = n := Nat.mod_eq_of_lt hlt
      rw [hq, natToHexAux_zero]
      exact ⟨hexDigitChar (n % 16), acc, rfl,
        hexDigitChar_ne_zero (by omega) (by omega),
        hexDigitChar_lower (by omega)⟩
    · have : n / 16 ≤ f := by
        have := Nat.div_lt_self (Nat.pos_of_ne_zero h1) (show 1 < 16 by omega)
        omega
      exact ih (n / 16) _ hq this

theorem natToHex_head_ne_zero {n : Nat} (h : n ≠ 0) : (natToHex n).head? ≠ some '0' := by
  unfold natToHex
  rw [if_neg h]
  obtain ⟨c, t, heq, hc, _⟩ := natToHexAux_head n n [] h le_rfl
  rw [heq]
  simp [hc]

theorem natToHex_all_lower (n : Nat) : ∀ c ∈ natToHex n, isLowerHexDigit c = true := by
  intro c hc
  obtain ⟨d, hd, rfl⟩ := natToHex_mem hc
  exact hexDigitChar_lower hd

theorem encodeFeltOk_true (n : Nat) : encodeFeltOk n = true := by
  by_cases h : n = 0
  · subst h; rfl
  · unfold encodeFeltOk
    dsimp only
    rw [pyHex_ofNat, toList_asString, if_neg h]
    simp only [List.take_succ_cons, List.take_zero, List.drop_succ_cons, List.drop_zero,
      Bool.and_eq_true, decide_eq_true_eq]
    refine ⟨⟨⟨trivial, natToHex_ne_nil n⟩, ?_⟩, natToHex_head_ne_zero h⟩
    rw [List.all_eq_true]
    intro c hc
    exact natToHex_all_lower n c (by simpa using hc)

/- ## Engine lemmas -/

theorem replyWith_some (st : St) (X : JVal) (r : Option (List String)) (e : Option String) :
    replyWith st (some X) r e = (⟨X, none, none, r, e⟩, st) := rfl

theorem replyWith_none (st : St) (r : Option (List String)) (e : Option String) :
    replyWith st none r e = (⟨.jint st.nextSendId, none, none, r, e⟩, ⟨st.nextSendId + 1⟩) := rfl

theorem serveLoop_nil (t : JVal → List JVal → Except String (List Int)) (st : St) :
    serveLoop t st [] = ⟨[], 0⟩ := rfl

theorem serveLoop_cons (t : JVal → List JVal → Except String (List Int)) (st : St)
    (m : JVal) (rest : List JVal) :
    serveLoop t st (m :: rest) =
      match step t st m with
      | .fatal extra => ⟨extra, 1⟩
      | .stop => ⟨[], 0⟩
      | .reply out st' => ⟨out :: (serveLoop t st' rest).outputs, (serveLoop t st' rest).exitCode⟩ := by
  rfl

theorem step_notobj (t : JVal → List JVal → Except String (List Int)) (st : St)
    {m : JVal} (h : isObjB m = false) : step t st m = .fatal [] := by
  cases m <;> first | rfl | simp [isObjB] at h

theorem step_badversion (t : JVal → List JVal → Except String (List Int)) (st : St)
    {fields : List (String × JVal)} (h : jsonrpcOk fields = false) :
    step t st (.jobj fields) = .fatal [] := by
  rw [step.eq_def]
  dsimp only
  rw [if_neg (by rw [h]; exact Bool.false_ne_true)]

theorem step_badmethod (t : JVal → List JVal → Except String (List Int)) (st : St)
    {fields : List (String × JVal)} (h1 : jsonrpcOk fields = true)
    (h2 : methodTruthy fields = false) :
    step t st (.jobj fields) = fatalMethod fields := by
  rw [step.eq_def]
  dsimp only
  rw [if_pos h1]
  unfold methodTruthy at h2
  cases hm : dictGet fields "method" with
  | none => rfl
  | some v =>
    rw [hm] at h2
    dsimp only at h2 ⊢
    rw [if_neg (by rw [h2]; exact Bool.false_ne_true)]

theorem step_shutdown (t : JVal → List JVal → Except String (List Int)) (st : St)
    {fields : List (String × JVal)} (h1 : jsonrpcOk fields = true)
    (h2 : dictGet fields "method" = some (.jstr "shutdown")) :
    step t st (.jobj fields) = .stop := by
  rw [step.eq_def]
  dsimp only
  rw [if_pos h1, h2]
  dsimp only
  rw [if_pos (by decide : pyTruthy (.jstr "shutdown") = true),
    if_pos (by decide : pyEqStr (.jstr "shutdown") "shutdown" = true)]

theorem step_invoke (t : JVal → List JVal → Except String (List Int)) (st : St)
    {fields : List (String × JVal)} {sel : JVal} {args : List JVal}
    (h1 : jsonrpcOk fields = true)
    (h2 : dictGet fields "method" = some (.jstr "invoke"))
    (h4 : invokePrep fields = some (sel, args)) :
    step t st (.jobj fields) =
      match t sel args with
      | .ok res =>
        .reply (replyWith st (normNull (dictGet fields "id")) (some (encode res)) none).1
          (replyWith st (normNull (dictGet fields "id")) (some (encode res)) none).2
      | .error e =>
        .reply (replyWith st (normNull (dictGet fields "id")) none (some e)).1
          (replyWith st (normNull (dictGet fields "id")) none (some e)).2 := by
  rw [step.eq_def]
  dsimp only
  rw [if_pos h1, h2]
  dsimp only
  rw [if_pos (by decide : pyTruthy (.jstr "invoke") = true),
    if_neg (by decide : ¬ (pyEqStr (.jstr "invoke") "shutdown" = true)),
    if_pos (by decide : pyEqStr (.jstr "invoke") "invoke" = true), h4]

theorem step_unknown (t : JVal → List JVal → Except String (List Int)) (st : St)
    {fields : List (String × JVal)} {v : JVal}
    (h1 : jsonrpcOk fields = true)
    (h2 : dictGet fields "method" = some v)
    (htr : pyTruthy v = true)
    (hsd : pyEqStr v "shutdown" = false)
    (hin : pyEqStr v "invoke" = false) :
    step t st (.jobj fields) =
      .reply (replyWith st (normNull (dictGet fields "id")) none
          (some ("unknown method " ++ reprJVal v))).1
        (replyWith st (normNull (dictGet fields "id")) none
          (some ("unknown method " ++ reprJVal v))).2 := by
  rw [step.eq_def]
  dsimp only
  rw [if_pos h1, h2]
  dsimp only
  rw [if_pos htr, if_neg (by rw [hsd]; exact Bool.false_ne_true),
    if_neg (by rw [hin]; exact Bool.false_ne_true)]

theorem replyWith_reply_inv {st : St} {rid : Option JVal} {r : Option (List String)}
    {e : Option String} {out : OutMsg} {st' : St}
    (h : StepRes.reply (replyWith st rid r e).1 (replyWith st rid r e).2 = .reply out st') :
    out.method = none ∧ out.params = none ∧ out.result = r ∧ out.error = e ∧
      ((∃ X, rid = some X ∧ out.id = X ∧ st' = st) ∨
       (rid = none ∧ out.id = .jint st.nextSendId ∧ st' = ⟨st.nextSendId + 1⟩)) := by
  cases rid with
  | some X =>
    rw [replyWith_some] at h
    injection h with ho hs
    subst ho hs
    exact ⟨rfl, rfl, rfl, rfl, Or.inl ⟨X, rfl, rfl, rfl⟩⟩
  | none =>
    rw [replyWith_none] at h
    injection h with ho hs
    subst ho hs
    exact ⟨rfl, rfl, rfl, rfl, Or.inr ⟨rfl, rfl, rfl⟩⟩

theorem step_reply_inv {t : JVal → List JVal → Except String (List Int)} {st : St}
    {m : JVal} {out : OutMsg} {st' : St} (h : step t st m = .reply out st') :
    ∃ fields, m = .jobj fields ∧
      out.method = none ∧ out.params = none ∧
      (out.result = none ∨ out.error = none) ∧
      ((∃ X, normNull (dictGet fields "id") = some X ∧ out.id = X ∧ st' = st) ∨
       (normNull (dictGet fields "id") = none ∧ out.id = .jint st.nextSendId ∧
        st' = ⟨st.nextSendId + 1⟩)) := by
  cases m with
  | jnull => rw [@step_notobj t st .jnull rfl] at h; cases h
  | jbool b => rw [@step_notobj t st (.jbool b) rfl] at h; cases h
  | jint n => rw [@step_notobj t st (.jint n) rfl] at h; cases h
  | jstr s => rw [@step_notobj t st (.jstr s) rfl] at h; cases h
  | jarr l => rw [@step_notobj t st (.jarr l) rfl] at h; cases h
  | jobj fields =>
    rw [step.eq_def] at h
    dsimp only at h
    by_cases hj : jsonrpcOk fields = true
    case neg =>
      rw [if_neg hj] at h
      cases h
    rw [if_pos hj] at h
    cases hm : dictGet fields "method" with
    | none =>
      rw [hm] at h
      dsimp only at h
      rw [fatalMethod.eq_def] at h
      cases hn : normNull (dictGet fields "id") <;> rw [hn] at h <;> dsimp only at h <;> cases h
    | some v =>
      rw [hm] at h
      dsimp only at h
      by_cases htr : pyTruthy v = true
      case neg =>
        rw [if_neg htr] at h
        rw [fatalMethod.eq_def] at h
        cases hn : normNull (dictGet fields "id") <;> rw [hn] at h <;> dsimp only at h <;> cases h
      rw [if_pos htr] at h
      by_cases hsd : pyEqStr v "shutdown" = true
      case pos => rw [if_pos hsd] at h; cases h
      rw [if_neg hsd] at h
      by_cases hin : pyEqStr v "invoke" = true
      case neg =>
        rw [if_neg hin] at h
        obtain ⟨p1, p2, p3, _, p5⟩ := replyWith_reply_inv h
        exact ⟨fields, rfl, p1, p2, Or.inl p3, p5⟩
      rw [if_pos hin] at h
      cases hp : invokePrep fields with
      | none => rw [hp] at h; dsimp only at h; cases h
      | some pa =>
        obtain ⟨sel, args⟩ := pa
        rw [hp] at h
        dsimp only at h
        cases ht : t sel args with
        | ok res =>
          rw [ht] at h
          dsimp only at h
          obtain ⟨p1, p2, _, p4, p5⟩ := replyWith_reply_inv h
          exact ⟨fields, rfl, p1, p2, Or.inr p4, p5⟩
        | error e =>
          rw [ht] at h
          dsimp only at h
          obtain ⟨p1, p2, p3, _, p5⟩ := replyWith_reply_inv h
          exact ⟨fields, rfl, p1, p2, Or.inl p3, p5⟩

theorem fatalMethod_fatal_inv {fields : List (String × JVal)} {ex : List OutMsg}
    (h : fatalMethod fields = .fatal ex) :
    ex = [] ∨ ∃ v msg, ex = [errOut v msg] := by
  rw [fatalMethod.eq_def] at h
  cases hn : normNull (dictGet fields "id") <;> rw [hn] at h <;> dsimp only at h
  · injection h with he
    exact Or.inl he.symm
  · injection h with he
    exact Or.inr ⟨_, _, he.symm⟩

theorem step_fatal_inv {t : JVal → List JVal → Except String (List Int)} {st : St}
    {m : JVal} {ex : List OutMsg} (h : step t st m = .fatal ex) :
    ex = [] ∨ ∃ v msg, ex = [errOut v msg] := by
  cases m with
  | jnull => rw [@step_notobj t st .jnull rfl] at h; injection h with he; exact Or.inl he.symm
  | jbool b => rw [@step_notobj t st (.jbool b) rfl] at h; injection h with he; exact Or.inl he.symm
  | jint n => rw [@step_notobj t st (.jint n) rfl] at h; injection h with he; exact Or.inl he.symm
  | jstr s => rw [@step_notobj t st (.jstr s) rfl] at h; injection h with he; exact Or.inl he.symm
  | jarr l => rw [@step_notobj t st (.jarr l) rfl] at h; injection h with he; exact Or.inl he.symm
  | jobj fields =>
    rw [step.eq_def] at h
    dsimp only at h
    by_cases hj : jsonrpcOk fields = true
    case neg =>
      rw [if_neg hj] at h
      injection h with he
      exact Or.inl he.symm
    rw [if_pos hj] at h
    cases hm : dictGet fields "method" with
    | none =>
      rw [hm] at h
      dsimp only at h
      exact fatalMethod_fatal_inv h
    | some v =>
      rw [hm] at h
      dsimp only at h
      by_cases htr : pyTruthy v = true
      case neg =>
        rw [if_neg htr] at h
        exact fatalMethod_fatal_inv h
      rw [if_pos htr] at h
      by_cases hsd : pyEqStr v "shutdown" = true
      case pos => rw [if_pos hsd] at h; cases h
      rw [if_neg hsd] at h
      by_cases hin : pyEqStr v "invoke" = true
      case neg => rw [if_neg hin] at h; cases h
      rw [if_pos hin] at h
      cases hp : invokePrep fields with
      | none =>
        rw [hp] at h
        dsimp only at h
        injection h with he
        exact Or.inl he.symm
      | some pa =>
        obtain ⟨sel, args⟩ := pa
        rw [hp] at h
        dsimp only at h
        cases ht : t sel args with
        | ok res => rw [ht] at h; dsimp only at h; cases h
        | error e => rw [ht] at h; dsimp only at h; cases h

theorem serveLoop_msgs (t : JVal → List JVal → Except String (List Int)) :
    ∀ (inputs : List JVal) (st : St) (o : OutMsg),
      o ∈ (serveLoop t st inputs).outputs → o.result = none ∨ o.error = none := by
  intro inputs
  induction inputs with
  | nil => intro st o h; rw [serveLoop_nil] at h; simp at h
  | cons a rest ih =>
    intro st o h
    rw [serveLoop_cons] at h
    cases hs : step t st a with
    | fatal ex =>
      rw [hs] at h
      dsimp only at h
      rcases step_fatal_inv hs with he | ⟨v, msg, he⟩
      · subst he; simp at h
      · subst he
        rcases List.mem_singleton.mp h with rfl
        exact Or.inl rfl
    | stop => rw [hs] at h; simp at h
    | reply out st' =>
      rw [hs] at h
      dsimp only at h
      rcases List.mem_cons.mp h with rfl | hmem
      · obtain ⟨_, _, _, _, hre, _⟩ := step_reply_inv hs
        exact hre
      · exact ih st' o hmem

theorem fatalMethod_some {fields : List (String × JVal)} {v : JVal}
    (hn : normNull (dictGet fields "id") = some v) :
    fatalMethod fields =
      .fatal [errOut v ("expected method, got " ++ reprJVal (.jobj fields))] := by
  rw [fatalMethod.eq_def, hn]

theorem fatalMethod_none {fields : List (String × JVal)}
    (hn : normNull (dictGet fields "id") = none) :
    fatalMethod fields = .fatal [] := by
  rw [fatalMethod.eq_def, hn]

theorem runOracle_nil (t : JVal → List JVal → Except String (List Int)) :
    runOracle t [] = ⟨[readyMsg], 1⟩ := rfl

theorem runOracle_hs_ok (t : JVal → List JVal → Except String (List Int))
    {fields : List (String × JVal)} (rest : List JVal)
    (h1 : jsonrpcOk fields = true) (h2 : handshakeIdOk fields = true) :
    runOracle t (.jobj fields :: rest) =
      ⟨readyMsg :: (serveLoop t ⟨1⟩ rest).outputs, (serveLoop t ⟨1⟩ rest).exitCode⟩ := by
  rw [runOracle.eq_def]
  dsimp only
  rw [if_pos h1, if_pos h2]

theorem runOracle_hs_wrongid (t : JVal → List JVal → Except String (List Int))
    {fields : List (String × JVal)} (rest : List JVal) {v : JVal}
    (h1 : jsonrpcOk fields = true) (h2 : handshakeIdOk fields = false)
    (hn : normNull (dictGet fields "id") = some v) :
    runOracle t (.jobj fields :: rest) =
      ⟨[readyMsg, errOut v ("expected message with ID 0, got " ++ reprJVal v)], 1⟩ := by
  rw [runOracle.eq_def]
  dsimp only
  rw [if_pos h1, if_neg (by rw [h2]; exact Bool.false_ne_true), hn]

theorem runOracle_hs_noid (t : JVal → List JVal → Except String (List Int))
    {fields : List (String × JVal)} (rest : List JVal)
    (h1 : jsonrpcOk fields = true) (h2 : handshakeIdOk fields = false)
    (hn : normNull (dictGet fields "id") = none) :
    runOracle t (.jobj fields :: rest) = ⟨[readyMsg], 1⟩ := by
  rw [runOracle.eq_def]
  dsimp only
  rw [if_pos h1, if_neg (by rw [h2]; exact Bool.false_ne_true), hn]

theorem runOracle_hs_badversion (t : JVal → List JVal → Except String (List Int))
    {fields : List (String × JVal)} (rest : List JVal)
    (h1 : jsonrpcOk fields = false) :
    runOracle t (.jobj fields :: rest) = ⟨[readyMsg], 1⟩ := by
  rw [runOracle.eq_def]
  dsimp only
  rw [if_neg (by rw [h1]; exact Bool.false_ne_true)]

theorem runOracle_head (t : JVal → List JVal → Except String (List Int))
    (inputs : List JVal) : (runOracle t inputs).outputs.head? = some readyMsg := by
  cases inputs with
  | nil => rfl
  | cons m rest =>
    cases m with
    | jobj fields =>
      by_cases h1 : jsonrpcOk fields = true
      · by_cases h2 : handshakeIdOk fields = true
        · rw [runOracle_hs_ok t rest h1 h2]; rfl
        · rw [Bool.not_eq_true] at h2
          cases hn : normNull (dictGet fields "id") with
          | none => rw [runOracle_hs_noid t rest h1 h2 hn]; rfl
          | some v => rw [runOracle_hs_wrongid t rest h1 h2 hn]; rfl
      · rw [Bool.not_eq_true] at h1
        rw [runOracle_hs_badversion t rest h1]; rfl
    | jnull => rfl
    | jbool b => rfl
    | jint n => rfl
    | jstr s => rfl
    | jarr l => rfl

theorem runOracle_notobj (t : JVal → List JVal → Except String (List Int))
    {m : JVal} (h : isObjB m = false) (rest : List JVal) :
    runOracle t (m :: rest) = ⟨[readyMsg], 1⟩ := by
  cases m <;> first | rfl | simp [isObjB] at h

/- ## Claim theorems -/

/-- C1: decoding the encoding of a non-negative felt yields the felt back,
and pointwise over sequences decoding the hex-encoded output felt sequence
yields the original integers in order. -/
theorem C1_felt_roundtrip :
    (∀ n : Nat, decodeElem (.jstr (pyHex (n : Int))) = some (.jint (n : Int))) ∧
    (∀ ns : List Nat,
      decode ((encode (ns.map (fun (k : Nat) => (k : Int)))).map JVal.jstr) =
        some (ns.map (fun (k : Nat) => JVal.jint (k : Int)))) :=
  ⟨decodeElem_pyHex, decode_encode⟩

/-- C2: an invoke request carrying identifier X whose calldata decodes
produces exactly one response, its identifier is X, the counter state is
untouched, and the response carries result exactly on handler success and
error with the failure description exactly on handler failure (unknown
selectors raise, so they land in the error case). -/
theorem C2_dispatch_correlation
    (t : JVal → List JVal → Except String (List Int)) (st : St) (rest : List JVal)
    (fields : List (String × JVal)) (X : JVal) (sel : JVal) (args : List JVal)
    (h1 : jsonrpcOk fields = true)
    (h2 : dictGet fields "method" = some (.jstr "invoke"))
    (h3 : normNull (dictGet fields "id") = some X)
    (h4 : invokePrep fields = some (sel, args)) :
    ∃ out : OutMsg,
      serveLoop t st (.jobj fields :: rest) =
        ⟨out :: (serveLoop t st rest).outputs, (serveLoop t st rest).exitCode⟩ ∧
      out.id = X ∧
      ((∃ res, t sel args = .ok res ∧ out.result = some (encode res) ∧ out.error = none) ∨
       (∃ e, t sel args = .error e ∧ out.result = none ∧ out.error = some e)) := by
  have hstep := step_invoke t st h1 h2 h4
  cases ht : t sel args with
  | ok res =>
    rw [ht] at hstep
    dsimp only at hstep
    rw [h3, replyWith_some] at hstep
    refine ⟨⟨X, none, none, some (encode res), none⟩, ?_, rfl, Or.inl ⟨res, rfl, rfl, rfl⟩⟩
    rw [serveLoop_cons, hstep]
  | error e =>
    rw [ht] at hstep
    dsimp only at hstep
    rw [h3, replyWith_some] at hstep
    refine ⟨⟨X, none, none, none, some e⟩, ?_, rfl, Or.inr ⟨e, rfl, rfl, rfl⟩⟩
    rw [serveLoop_cons, hstep]

/-- C2 witness: the theorem applied to a concrete invoke of the panic
selector with identifier 7 against the failing dispatch table. -/
theorem C2_dispatch_correlation_witness :
    ∃ out : OutMsg,
      serveLoop oopsTable ⟨1⟩ (.jobj invokeFields :: []) =
        ⟨out :: (serveLoop oopsTable ⟨1⟩ []).outputs, (serveLoop oopsTable ⟨1⟩ []).exitCode⟩ ∧
      out.id = .jint 7 ∧
      ((∃ res, oopsTable (.jstr "panic") [] = .ok res ∧
          out.result = some (encode res) ∧ out.error = none) ∨
       (∃ e, oopsTable (.jstr "panic") [] = .error e ∧
          out.result = none ∧ out.error = some e)) :=
  C2_dispatch_correlation oopsTable ⟨1⟩ [] invokeFields (.jint 7) (.jstr "panic") []
    rfl rfl rfl rfl

/-- C3: the first emitted message is the ready notification with the fresh
self-generated identifier 0, and an acknowledgement whose identifier does
not correlate makes the session exit 1 without entering the serving loop:
the run ignores all input after the first line. -/
theorem C3_handshake :
    (∀ (t : JVal → List JVal → Except String (List Int)) (inputs : List JVal),
      (runOracle t inputs).outputs.head? = some readyMsg ∧
      readyMsg.method = some "ready" ∧ readyMsg.id = .jint 0) ∧
    (∀ (t : JVal → List JVal → Except String (List Int))
      (fields : List (String × JVal)) (rest : List JVal),
      jsonrpcOk fields = true → handshakeIdOk fields = false →
      (runOracle t (.jobj fields :: rest)).exitCode = 1 ∧
      runOracle t (.jobj fields :: rest) = runOracle t [.jobj fields]) := by
  constructor
  · intro t inputs
    exact ⟨runOracle_head t inputs, rfl, rfl⟩
  · intro t fields rest h1 h2
    cases hn : normNull (dictGet fields "id") with
    | none =>
      rw [runOracle_hs_noid t rest h1 h2 hn, runOracle_hs_noid t [] h1 h2 hn]
      exact ⟨rfl, rfl⟩
    | some v =>
      rw [runOracle_hs_wrongid t rest h1 h2 hn, runOracle_hs_wrongid t [] h1 h2 hn]
      exact ⟨rfl, rfl⟩

/-- C3 witness: a concrete acknowledgement carrying identifier 7 instead of
0 aborts the session even though a well-formed shutdown line follows. -/
theorem C3_handshake_witness :
    (runOracle oopsTable (.jobj wrongAckFields :: [.jobj shutdownFields])).exitCode = 1 ∧
    runOracle oopsTable (.jobj wrongAckFields :: [.jobj shutdownFields]) =
      runOracle oopsTable [.jobj wrongAckFields] :=
  C3_handshake.2 oopsTable wrongAckFields [.jobj shutdownFields] rfl rfl

/-- C4 counterexample: decode does not fail with a BadFelt error on a
non-string non-integer JSON value (null passes through unchanged), and a
string without the 0x prefix is not parsed as a decimal literal (the binary
literal 0b11 parses to 3 instead of failing). -/
theorem C4_decode_counterexample :
    decode [JVal.jnull] = some [JVal.jnull] ∧ pyIntBase0 "0b11" = some 3 :=
  ⟨rfl, rfl⟩

/-- C4 as amended: decode parses JSON strings as Python base-0 integer
literals (hex, octal, binary or plain decimal without leading zeros) and
passes every non-string element through unchanged, so hex strings and bare
integers both decode to the felt they denote. -/
theorem C4_decode_cases :
    (∀ n : Nat, decodeElem (.jstr (pyHex (n : Int))) = some (.jint (n : Int)) ∧
      decodeElem (.jint (n : Int)) = some (.jint (n : Int))) ∧
    (∀ v : JVal, isStrB v = false → decodeElem v = some v) ∧
    decodeElem (.jstr "0o17") = some (.jint 15) ∧
    decodeElem (.jstr "010") = none := by
  refine ⟨fun n => ⟨decodeElem_pyHex n, rfl⟩, ?_, rfl, rfl⟩
  intro v hv
  cases v <;> first | rfl | simp [isStrB] at hv

/-- C4 witness: the amended pass-through case applied to the JSON null. -/
theorem C4_decode_cases_witness : decodeElem JVal.jnull = some JVal.jnull :=
  C4_decode_cases.2.1 JVal.jnull rfl

/-- C5: the hex encoding of every non-negative felt is a 0x-prefixed string
of lowercase hexadecimal digits with no leading zero digit, and zero is
rendered as exactly "0x0". -/
theorem C5_encode_format :
    (∀ n : Nat, encodeFeltOk n = true) ∧ pyHex ((0 : Nat) : Int) = "0x0" :=
  ⟨encodeFeltOk_true, rfl⟩

/-- C6: the sqrt handler computes int(calldata[0] ** 0.5), which converts
the felt to an IEEE-754 binary64 value first; at the felt 2 to the 54th
minus 1 this conversion already rounds (ties-to-even) to 2 to the 54th,
whose exact square root 2 to the 27th is what any faithfully rounded pow
returns, while the integer square root demanded by the claim is one less.
So the code cannot return the claimed integer square root there. -/
theorem C6_sqrt_float_divergence :
    roundB64 (2 ^ 54 - 1) = 2 ^ 54 ∧
    specIsqrt (2 ^ 54 - 1) = 2 ^ 27 - 1 ∧
    specIsqrt (2 ^ 54) = 2 ^ 27 := by
  refine ⟨by decide, ?_, ?_⟩
  · unfold specIsqrt
    symm
    rw [Nat.eq_sqrt]
    constructor <;> norm_num
  · unfold specIsqrt
    symm
    rw [Nat.eq_sqrt]
    constructor <;> norm_num

/-- C7: a shutdown request ends the serving loop with exit code 0 and no
response (the remaining input is ignored), and end of input during the
serving loop likewise produces no further output and exit code 0. -/
theorem C7_shutdown_eof :
    (∀ (t : JVal → List JVal → Except String (List Int)) (st : St),
      serveLoop t st [] = ⟨[], 0⟩) ∧
    (∀ (t : JVal → List JVal → Except String (List Int)) (st : St)
      (fields : List (String × JVal)) (rest : List JVal),
      jsonrpcOk fields = true →
      dictGet fields "method" = some (.jstr "shutdown") →
      serveLoop t st (.jobj fields :: rest) = ⟨[], 0⟩) := by
  constructor
  · intro t st
    exact serveLoop_nil t st
  · intro t st fields rest h1 h2
    rw [serveLoop_cons, step_shutdown t st h1 h2]

/-- C7 witness: a concrete shutdown request with a further line behind it
still produces no output and code 0. -/
theorem C7_shutdown_eof_witness :
    serveLoop oopsTable ⟨1⟩ (.jobj shutdownFields :: [.jobj wrongAckFields]) = ⟨[], 0⟩ :=
  C7_shutdown_eof.2 oopsTable ⟨1⟩ shutdownFields [.jobj wrongAckFields] rfl rfl

/-- C8 counterexample: a serving-loop message with the wrong jsonrpc version
carrying identifier 3 is a fatal protocol violation, yet the process emits
no error response carrying that identifier before exiting 1: the only
message ever written is the ready notification with identifier 0. -/
theorem C8_fatal_notification_counterexample :
    (runOracle oopsTable badVersionSession).exitCode = 1 ∧
    (runOracle oopsTable badVersionSession).outputs.map OutMsg.id = [JVal.jint 0] :=
  ⟨rfl, rfl⟩

/-- C8 as amended: every fatal protocol violation exits with code 1; the
missing/empty-method violation and the handshake identifier mismatch send a
best-effort error response bearing the offending message identifier when one
is present (and nothing when not), while the not-an-object and wrong-version
violations never send a response, identifier or not. -/
theorem C8_fatal_paths :
    (∀ (t : JVal → List JVal → Except String (List Int)) (st : St)
      (fields : List (String × JVal)) (rest : List JVal) (v : JVal),
      jsonrpcOk fields = true → methodTruthy fields = false →
      normNull (dictGet fields "id") = some v →
      serveLoop t st (.jobj fields :: rest) =
        ⟨[errOut v ("expected method, got " ++ reprJVal (.jobj fields))], 1⟩) ∧
    (∀ (t : JVal → List JVal → Except String (List Int)) (st : St)
      (fields : List (String × JVal)) (rest : List JVal),
      jsonrpcOk fields = true → methodTruthy fields = false →
      normNull (dictGet fields "id") = none →
      serveLoop t st (.jobj fields :: rest) = ⟨[], 1⟩) ∧
    (∀ (t : JVal → List JVal → Except String (List Int))
      (fields : List (String × JVal)) (rest : List JVal) (v : JVal),
      jsonrpcOk fields = true → handshakeIdOk fields = false →
      normNull (dictGet fields "id") = some v →
      runOracle t (.jobj fields :: rest) =
        ⟨[readyMsg, errOut v ("expected message with ID 0, got " ++ reprJVal v)], 1⟩) ∧
    (∀ (t : JVal → List JVal → Except String (List Int)) (st : St)
      (m : JVal) (rest : List JVal), isObjB m = false →
      serveLoop t st (m :: rest) = ⟨[], 1⟩) ∧
    (∀ (t : JVal → List JVal → Except String (List Int)) (st : St)
      (fields : List (String × JVal)) (rest : List JVal),
      jsonrpcOk fields = false →
      serveLoop t st (.jobj fields :: rest) = ⟨[], 1⟩) := by
  refine ⟨?_, ?_, ?_, ?_, ?_⟩
  · intro t st fields rest v h1 h2 hn
    rw [serveLoop_cons, step_badmethod t st h1 h2, fatalMethod_some hn]
  · intro t st fields rest h1 h2 hn
    rw [serveLoop_cons, step_badmethod t st h1 h2, fatalMethod_none hn]
  · intro t fields rest v h1 h2 hn
    exact runOracle_hs_wrongid t rest h1 h2 hn
  · intro t st m rest h
    rw [serveLoop_cons, step_notobj t st h]
  · intro t st fields rest h1
    rw [serveLoop_cons, step_badversion t st h1]

/-- C8 witness: the amended missing-method path applied to a concrete
request carrying identifier 9 and no method. -/
theorem C8_fatal_paths_witness :
    serveLoop oopsTable ⟨1⟩ (.jobj noMethodFields :: []) =
      ⟨[errOut (.jint 9) ("expected method, got " ++ reprJVal (.jobj noMethodFields))], 1⟩ :=
  C8_fatal_paths.1 oopsTable ⟨1⟩ noMethodFields [] (.jint 9) rfl rfl rfl

/-- C9: no message the oracle ever emits carries both a result and an error
payload. -/
theorem C9_result_error_exclusive
    (t : JVal → List JVal → Except String (List Int)) (inputs : List JVal)
    (o : OutMsg) (h : o ∈ (runOracle t inputs).outputs) :
    o.result = none ∨ o.error = none := by
  cases inputs with
  | nil =>
    rw [runOracle_nil] at h
    rcases List.mem_singleton.mp h with rfl
    exact Or.inl rfl
  | cons m rest =>
    cases m with
    | jobj fields =>
      by_cases h1 : jsonrpcOk fields = true
      · by_cases h2 : handshakeIdOk fields = true
        · rw [runOracle_hs_ok t rest h1 h2] at h
          rcases List.mem_cons.mp h with rfl | hmem
          · exact Or.inl rfl
          · exact serveLoop_msgs t rest ⟨1⟩ o hmem
        · rw [Bool.not_eq_true] at h2
          cases hn : normNull (dictGet fields "id") with
          | none =>
            rw [runOracle_hs_noid t rest h1 h2 hn] at h
            rcases List.mem_singleton.mp h with rfl
            exact Or.inl rfl
          | some v =>
            rw [runOracle_hs_wrongid t rest h1 h2 hn] at h
            rcases List.mem_cons.mp h with rfl | hmem
            · exact Or.inl rfl
            · rcases List.mem_singleton.mp hmem with rfl
              exact Or.inl rfl
      · rw [Bool.not_eq_true] at h1
        rw [runOracle_hs_badversion t rest h1] at h
        rcases List.mem_singleton.mp h with rfl
        exact Or.inl rfl
    | jnull =>
      rw [@runOracle_notobj t .jnull rfl rest] at h
      rcases List.mem_singleton.mp h with rfl
      exact Or.inl rfl
    | jbool b =>
      rw [@runOracle_notobj t (.jbool b) rfl rest] at h
      rcases List.mem_singleton.mp h with rfl
      exact Or.inl rfl
    | jint n =>
      rw [@runOracle_notobj t (.jint n) rfl rest] at h
      rcases List.mem_singleton.mp h with rfl
      exact Or.inl rfl
    | jstr s =>
      rw [@runOracle_notobj t (.jstr s) rfl rest] at h
      rcases List.mem_singleton.mp h with rfl
      exact Or.inl rfl
    | jarr l =>
      rw [@runOracle_notobj t (.jarr l) rfl rest] at h
      rcases List.mem_singleton.mp h with rfl
      exact Or.inl rfl

/-- C9 witness: the theorem applied to the ready message of the empty
session. -/
theorem C9_result_error_exclusive_witness :
    readyMsg.result = none ∨ readyMsg.error = none :=
  C9_result_error_exclusive oopsTable [] readyMsg
    (by rw [runOracle_nil]; exact List.mem_singleton.mpr rfl)

/-- C10: every emitted reply bears an identifier: the first emitted message
carries the fresh counter value 0; a reply to a request that carried an
identifier echoes it verbatim and leaves the counter untouched; a reply to
an invoke or unknown-method request without an identifier (or with a null
one) bears the current counter value, which is then incremented; and after
the ready message consumes identifier 0 the serving loop starts at 1. -/
theorem C10_identifier_management :
    (∀ (t : JVal → List JVal → Except String (List Int)) (inputs : List JVal),
      ((runOracle t inputs).outputs.head?).map OutMsg.id = some (.jint 0)) ∧
    (∀ (t : JVal → List JVal → Except String (List Int)) (st : St)
      (fields : List (String × JVal)) (out : OutMsg) (st' : St) (X : JVal),
      step t st (.jobj fields) = .reply out st' →
      normNull (dictGet fields "id") = some X →
      out.id = X ∧ st' = st) ∧
    (∀ (t : JVal → List JVal → Except String (List Int)) (st : St)
      (fields : List (String × JVal)) (out : OutMsg) (st' : St),
      step t st (.jobj fields) = .reply out st' →
      normNull (dictGet fields "id") = none →
      out.id = .jint (st.nextSendId : Int) ∧ st' = ⟨st.nextSendId + 1⟩) ∧
    (∀ (t : JVal → List JVal → Except String (List Int))
      (fields : List (String × JVal)) (rest : List JVal),
      jsonrpcOk fields = true → handshakeIdOk fields = true →
      runOracle t (.jobj fields :: rest) =
        ⟨readyMsg :: (serveLoop t ⟨1⟩ rest).outputs, (serveLoop t ⟨1⟩ rest).exitCode⟩) := by
  refine ⟨?_, ?_, ?_, ?_⟩
  · intro t inputs
    rw [runOracle_head]
    rfl
  · intro t st fields out st' X hstep hn
    obtain ⟨fields2, heq, _, _, _, hrid⟩ := step_reply_inv hstep
    injection heq with hf
    subst hf
    rcases hrid with ⟨Y, hY, hid, hst⟩ | ⟨hnone, _, _⟩
    · rw [hn] at hY
      injection hY with hXY
      subst hXY
      exact ⟨hid, hst⟩
    · rw [hn] at hnone
      cases hnone
  · intro t st fields out st' hstep hn
    obtain ⟨fields2, heq, _, _, _, hrid⟩ := step_reply_inv hstep
    injection heq with hf
    subst hf
    rcases hrid with ⟨Y, hY, _, _⟩ | ⟨_, hid, hst⟩
    · rw [hn] at hY
      cases hY
    · exact ⟨hid, hst⟩
  · intro t fields rest h1 h2
    exact runOracle_hs_ok t rest h1 h2

/-- C10 witness: the fresh-identifier conjunct applied to a concrete invoke
without an identifier against counter state 5: the reply bears identifier 5
and the counter moves to 6. -/
theorem C10_identifier_management_witness :
    (⟨.jint 5, none, none, none, some "oops"⟩ : OutMsg).id = .jint 5 ∧
    (⟨6⟩ : St) = ⟨5 + 1⟩ :=
  C10_identifier_management.2.2.1 oopsTable ⟨5⟩ noidInvokeFields
    ⟨.jint 5, none, none, none, some "oops"⟩ ⟨6⟩ rfl rfl
